import Mathlib

/-!
Verification of the `yapb` progress-indicator library (lib.rs and its
`prefix` module) against its natural-language specification.

Modelling conventions for the shallow embedding:
* `f32`/`f64` values are modelled as exact rationals (`ℚ`); IEEE rounding is
  not modelled.  NaN and the infinities, which matter for the bar's clamping
  and for `fmt_sigfigs`, are modelled explicitly by the `FloatVal` type.
* machine integers (`u8`, `u32`, `usize`) are modelled as `ℕ` with explicit
  `% 256` / `% 2^32` where the code truncates or wraps.
* code that can panic is modelled with `Option`: the `unreachable!()` arm of
  the bar renderer and the overflow-checked `usize` subtraction
  `figures - 1` of `fmt_sigfigs` return `none` exactly when the Rust code
  would panic (debug) / misbehave (release).
* the `&'static str` unit labels of the tables in the `prefix` module
  are modelled by the enumeration `UnitSym`.
* `value.abs().log10() as isize` is modelled by `truncLog10`, the exact
  truncation toward zero of the real `log10` on a nonzero rational, which is
  what the `as isize` cast of the (real-valued) `log10` computes.
-/

namespace Yapb

/-- Model of an IEEE float as consumed by the renderers: finite values are
exact rationals, NaN and the two infinities are explicit constructors. -/
inductive FloatVal : Type
  | nan : FloatVal
  | inf : FloatVal
  | ninf : FloatVal
  | fin (q : ℚ) : FloatVal
deriving DecidableEq

/-- Rust `f32::max self other`: returns the other operand when `self` is NaN,
otherwise the larger value (the `other` argument is a finite constant here). -/
def fmax : FloatVal → ℚ → FloatVal
  | .nan, y => .fin y
  | .inf, _ => .inf
  | .ninf, y => .fin y
  | .fin q, y => .fin (max q y)

/-- Rust `f32::min self other`, same conventions as `fmax`. -/
def fmin : FloatVal → ℚ → FloatVal
  | .nan, y => .fin y
  | .inf, y => .fin y
  | .ninf, _ => .ninf
  | .fin q, y => .fin (min q y)

/-- `self.progress.max(0.0).min(1.0)` from `Bar::fmt`: the clamped progress
actually used for rendering.  The chain always produces a finite value. -/
def clamp01 (p : FloatVal) : ℚ :=
  match fmin (fmax p 0) 1 with
  | .fin q => q
  | .nan => 0
  | .inf => 1
  | .ninf => 0

/-- The partial-column glyph of `Bar::fmt`: the `match fraction` expression.
`none` models the `unreachable!()` arm, i.e. a panic for `fraction ≥ 8`. -/
def eighthChar : ℕ → Char → Option Char
  | 0, fill => some fill
  | 1, _ => some '▏'
  | 2, _ => some '▎'
  | 3, _ => some '▍'
  | 4, _ => some '▌'
  | 5, _ => some '▋'
  | 6, _ => some '▊'
  | 7, _ => some '▉'
  | _, _ => none

/-- `Bar`'s `Display::fmt`: emits `whole` full blocks, then (when a column is
left) the partial column and the trailing fill characters.  The output is the
emitted character sequence; `none` models the `unreachable!()` panic. -/
def barRender (p : FloatVal) (width : ℕ) (fill : Char) : Option (List Char) :=
  let count : ℚ := (width : ℚ) * clamp01 p
  let whole : ℕ := (⌊count⌋).toNat
  let fraction : ℕ := (⌊(count - (whole : ℚ)) * 8⌋).toNat
  if whole < width then
    (eighthChar fraction fill).map
      (fun c => List.replicate whole '█' ++ c :: List.replicate (width - 1 - whole) fill)
  else
    some (List.replicate whole '█')

/-- Spec-side description of the bar output, written from the claim: `whole`
full blocks, then, if a column remains, the `k`-th eighth-block glyph
(`fill` for `k = 0`), then fill characters for the remaining columns. -/
def eighthGlyph (k : ℕ) (fill : Char) : Char :=
  if k = 0 then fill else ['▏', '▎', '▍', '▌', '▋', '▊', '▉'].getD (k - 1) fill

/-- Spec-side bar output for a clamped progress value `q`. -/
def barExpected (q : ℚ) (width : ℕ) (fill : Char) : List Char :=
  let count : ℚ := (width : ℚ) * q
  let whole : ℕ := (⌊count⌋).toNat
  let k : ℕ := (⌊(count - (whole : ℚ)) * 8⌋).toNat
  List.replicate whole '█' ++
    (if whole < width then eighthGlyph k fill :: List.replicate (width - 1 - whole) fill
     else [])

/-- Bit rearrangement of `braille_binary`: dot-bitmap byte to braille offset. -/
def brailleBits (value : ℕ) : ℕ :=
  (value &&& 0x87) ||| ((value &&& 0x08) <<< 3) ||| ((value &&& 0x70) >>> 1)

/-- `braille_binary`: braille cell character for an 8-bit dot bitmap. -/
def braille_binary (value : ℕ) : Char :=
  Char.ofNat (0x2800 + brailleBits value)

/-- Left inverse of `brailleBits`, used to establish that the bit
rearrangement is a permutation of the 8 bits (proof device, not from the
source). -/
def brailleBitsInv (value : ℕ) : ℕ :=
  (value &&& 0x87) ||| ((value &&& 0x40) >>> 3) ||| ((value &&& 0x38) <<< 1)

/-- Glyph table of `Spinner8`. -/
def SPINNER8_STATES : List Char := ['⡀', '⠄', '⠂', '⠁', '⠈', '⠐', '⠠', '⢀']

/-- Glyph table of `Counter16`. -/
def COUNTER16_STATES : List Char :=
  [' ', '▘', '▖', '▌', '▝', '▀', '▞', '▛', '▗', '▚', '▄', '▙', '▐', '▜', '▟', '█']

/-- Glyph table of `Spinner4`. -/
def SPINNER4_STATES : List Char := ['▖', '▘', '▝', '▗']

/-- `Spinner8::set`: `state = value as u8 % 8`. -/
def spinner8Set (value : ℕ) : ℕ := value % 256 % 8

/-- `Spinner8::step`: `state = state.wrapping_add(count as u8) % 8`. -/
def spinner8Step (s count : ℕ) : ℕ := (s + count % 256) % 256 % 8

/-- `Spinner8`'s `Display`: unchecked glyph-table lookup (modelled with a
default that the in-range invariant makes unreachable). -/
def render8 (s : ℕ) : Char := SPINNER8_STATES.getD s ' '

/-- `Spinner4::set`. -/
def spinner4Set (value : ℕ) : ℕ := value % 256 % 4

/-- `Spinner4::step`. -/
def spinner4Step (s count : ℕ) : ℕ := (s + count % 256) % 256 % 4

/-- `Spinner4`'s `Display`. -/
def render4 (s : ℕ) : Char := SPINNER4_STATES.getD s ' '

/-- `Counter16::set`. -/
def counter16Set (value : ℕ) : ℕ := value % 256 % 16

/-- `Counter16::step`. -/
def counter16Step (s count : ℕ) : ℕ := (s + count % 256) % 256 % 16

/-- `Counter16`'s `Display`. -/
def render16 (s : ℕ) : Char := COUNTER16_STATES.getD s ' '

/-- `Counter256::set`: `state = value as u8`. -/
def counter256Set (value : ℕ) : ℕ := value % 256

/-- `Counter256::step`: wrapping 8-bit addition. -/
def counter256Step (s count : ℕ) : ℕ := (s + count % 256) % 256

/-- `Counter256`'s `Display`: `braille_binary(state)`. -/
def render256 (s : ℕ) : Char := braille_binary s

/-- `Snake::set`: stores the given `u32`. -/
def snakeSet (value : ℕ) : ℕ := value % 4294967296

/-- `Snake::step`: wrapping 32-bit addition. -/
def snakeStep (s count : ℕ) : ℕ := (s + count) % 4294967296

/-- Rust `u8::rotate_right`: rotation amount is taken mod 8. -/
def rotr8 (b k : ℕ) : ℕ := ((b >>> (k % 8)) ||| (b <<< (8 - k % 8))) &&& 0xFF

/-- Reversal of the most significant nibble in `Snake`'s `Display`. -/
def nibbleRev (snake : ℕ) : ℕ :=
  (snake &&& 0xF) ||| ((snake &&& 0x80) >>> 3) ||| ((snake &&& 0x40) >>> 1) |||
    ((snake &&& 0x20) <<< 1) ||| ((snake &&& 0x10) <<< 3)

/-- `length` in `Snake`'s `Display`: `|state % (2·WOBBLE) − WOBBLE| + 1`. -/
def snakeLength (s : ℕ) : ℕ := (((s % 10 : ℤ) - 5).natAbs + 1)

/-- The dot bitmap built by `Snake`'s `Display` (before `braille_binary`):
a run of `snakeLength s` low bits, rotated by `position` (`saturating_sub`
is `ℕ` subtraction; `as u8` is `% 256`), high nibble reversed. -/
def snakeByte (s : ℕ) : ℕ :=
  let bits : ℕ := ((0xFF <<< snakeLength s) &&& 0xFF) ^^^ 0xFF
  let position : ℕ := (5 * (s / 10) + (s % 10 - 5)) % 256
  nibbleRev (rotr8 bits position)

/-- `Snake`'s `Display`. -/
def renderSnake (s : ℕ) : Char := braille_binary (snakeByte s)

/-- One mutation of a spinner: absolute `set` or relative `step`, with
arbitrary `u32` argument (any larger `ℕ` behaves as its `u32` image). -/
inductive SpinOp : Type
  | set (value : ℕ) : SpinOp
  | step (count : ℕ) : SpinOp

/-- State transition of `Spinner8` under one mutation. -/
def applyOp8 (s : ℕ) : SpinOp → ℕ
  | .set v => spinner8Set v
  | .step c => spinner8Step s c

/-- State transition of `Spinner4` under one mutation. -/
def applyOp4 (s : ℕ) : SpinOp → ℕ
  | .set v => spinner4Set v
  | .step c => spinner4Step s c

/-- State transition of `Counter16` under one mutation. -/
def applyOp16 (s : ℕ) : SpinOp → ℕ
  | .set v => counter16Set v
  | .step c => counter16Step s c

/-- Number of lit dots (set bits) of an 8-bit dot bitmap. -/
def dotCount (b : ℕ) : ℕ :=
  b % 2 + b / 2 % 2 + b / 4 % 2 + b / 8 % 2 + b / 16 % 2 + b / 32 % 2 +
    b / 64 % 2 + b / 128 % 2

/-- The unit labels of the two tables in the `prefix` module (the source's
`&'static str` values, as an enumeration). -/
inductive UnitSym : Type
  | Ki | Mi | Gi | Ti | Pi | Ei | Zi | Yi
  | m | mu | n | p | f | a | z | y
  | k | M | G | T | P | E | Z | Y
deriving DecidableEq

/-- `TABLE` of `binary`. -/
def TABLE : List UnitSym := [.Ki, .Mi, .Gi, .Ti, .Pi, .Ei, .Zi, .Yi]

/-- `SMALL` of `si`. -/
def SMALL : List UnitSym := [.m, .mu, .n, .p, .f, .a, .z, .y]

/-- `LARGE` of `si`. -/
def LARGE : List UnitSym := [.k, .M, .G, .T, .P, .E, .Z, .Y]

/-- The divisor search loop of `binary`: `most` is iterated, `last` is the
clamp (`split_last`). -/
def binaryGo (x : ℚ) : ℚ → List UnitSym → UnitSym → ℚ × Option UnitSym
  | divisor, [], last => (x / divisor, some last)
  | divisor, u :: rest, last =>
    let next := divisor * 1024
    if next > x then (x / divisor, some u) else binaryGo x next rest last

/-- `prefix::binary`. -/
def binary (x : ℚ) : ℚ × Option UnitSym :=
  if x < 1024 then (x, none)
  else binaryGo x 1024 TABLE.dropLast (TABLE.getLastD .Yi)

/-- The scale-up loop of `si` for `|x| < 1`. -/
def siSmallGo (x : ℚ) : ℚ → List UnitSym → UnitSym → ℚ × Option UnitSym
  | divisor, [], last => (x / divisor, some last)
  | divisor, u :: rest, last =>
    let next := divisor * (1 / 1000)
    if next < |x| then (x / divisor, some u) else siSmallGo x next rest last

/-- The scale-down loop of `si` for `|x| ≥ 1000`. -/
def siLargeGo (x : ℚ) : ℚ → List UnitSym → UnitSym → ℚ × Option UnitSym
  | divisor, [], last => (x / divisor, some last)
  | divisor, u :: rest, last =>
    let next := divisor * 1000
    if next > |x| then (x / divisor, some u) else siLargeGo x next rest last

/-- `prefix::si`. -/
def si (x : ℚ) : ℚ × Option UnitSym :=
  if |x| < 1 then siSmallGo x (1 / 1000) SMALL.dropLast (SMALL.getLastD .y)
  else if |x| < 1000 then (x, none)
  else siLargeGo x 1000 LARGE.dropLast (LARGE.getLastD .Y)

/-- The notation and fractional digit count chosen by `fmt_sigfigs` (the
digit strings themselves are produced by Rust's float formatter and are not
part of the claims). -/
inductive Rendering : Type
  | fixed (fracDigits : ℕ) : Rendering
  | exponential (fracDigits : ℕ) : Rendering
deriving DecidableEq

/-- Overflow-checked `usize` subtraction: `none` models the Rust panic
(debug build) on underflow. -/
def checkedSub (a b : ℕ) : Option ℕ := if b ≤ a then some (a - b) else none

/-- Truncation toward zero of `log10 |q|` for a rational `q`, the exact value
of Rust's `q.abs().log10() as isize` under exact-real semantics. -/
def truncLog10 (q : ℚ) : ℤ :=
  if 1 ≤ |q| then (Nat.log 10 (⌊|q|⌋).toNat : ℤ)
  else -(Nat.log 10 (⌊|q|⁻¹⌋).toNat : ℤ)

/-- `value.abs().log10() as isize` over the full float domain: NaN casts to
0, the infinities give `log10 = +∞` which saturates to `isize::MAX`. -/
def truncLog10F : FloatVal → ℤ
  | .nan => 0
  | .inf => 2 ^ 63 - 1
  | .ninf => 2 ^ 63 - 1
  | .fin q => truncLog10 q

/-- `prefix::fmt_sigfigs`: chooses the notation and the fractional digit
count; `none` models the `figures - 1` usize underflow panic. -/
def fmt_sigfigs (value : FloatVal) (figures : ℕ) : Option Rendering :=
  if value = .fin 0 then (checkedSub figures 1).map .fixed
  else
    let log := truncLog10F value
    if log < 0 ∨ (figures : ℤ) ≤ log then (checkedSub figures 1).map .exponential
    else (checkedSub figures (log + 1).toNat).map .fixed

/-! ## Helper lemmas -/

lemma clamp01_nonneg (p : FloatVal) : 0 ≤ clamp01 p := by
  cases p <;> simp [clamp01, fmax, fmin]

lemma clamp01_le_one (p : FloatVal) : clamp01 p ≤ 1 := by
  cases p <;> simp [clamp01, fmax, fmin]

lemma eighthChar_eq_eighthGlyph (k : ℕ) (hk : k ≤ 7) (fill : Char) :
    eighthChar k fill = some (eighthGlyph k fill) := by
  interval_cases k <;> rfl

/-- Core lemma for the bar renderer: it never reaches the `unreachable!()`
arm, it agrees with the spec-side description, and the output has exactly
`width` characters. -/
lemma barRender_spec (p : FloatVal) (width : ℕ) (fill : Char) :
    barRender p width fill = some (barExpected (clamp01 p) width fill) ∧
      (barExpected (clamp01 p) width fill).length = width := by
  have hq0 : 0 ≤ clamp01 p := clamp01_nonneg p
  have hq1 : clamp01 p ≤ 1 := clamp01_le_one p
  set q := clamp01 p with hqdef
  set c : ℚ := (width : ℚ) * q with hcdef
  have hc0 : 0 ≤ c := mul_nonneg (Nat.cast_nonneg width) hq0
  have hcW : c ≤ (width : ℚ) := by
    calc c = (width : ℚ) * q := hcdef
    _ ≤ (width : ℚ) * 1 := by
        exact mul_le_mul_of_nonneg_left hq1 (Nat.cast_nonneg width)
    _ = (width : ℚ) := mul_one _
  have hfl0 : 0 ≤ ⌊c⌋ := Int.floor_nonneg.mpr hc0
  set whole : ℕ := (⌊c⌋).toNat with hwdef
  have hwQ : (whole : ℚ) = ((⌊c⌋ : ℤ) : ℚ) := by
    rw [hwdef]
    exact_mod_cast congrArg (fun z : ℤ => (z : ℚ)) (Int.toNat_of_nonneg hfl0)
  have hfr0 : 0 ≤ c - (whole : ℚ) := by
    rw [hwQ]; have := Int.floor_le c; linarith
  have hfr1 : c - (whole : ℚ) < 1 := by
    rw [hwQ]; have := Int.lt_floor_add_one c; linarith
  have hkbound : (⌊(c - (whole : ℚ)) * 8⌋).toNat ≤ 7 := by
    have h8 : ⌊(c - (whole : ℚ)) * 8⌋ < 8 := by
      apply Int.floor_lt.mpr; push_cast; linarith
    omega
  have hwW : whole ≤ width := by
    have hfW : ⌊c⌋ ≤ (width : ℤ) := by
      have := Int.floor_le_floor hcW
      rwa [Int.floor_natCast] at this
    omega
  set k : ℕ := (⌊(c - (whole : ℚ)) * 8⌋).toNat with hkdef
  have hech : eighthChar k fill = some (eighthGlyph k fill) :=
    eighthChar_eq_eighthGlyph k hkbound fill
  constructor
  · show barRender p width fill = _
    rw [barRender, barExpected]
    simp only [← hqdef, ← hcdef, ← hwdef, ← hkdef, hech]
    by_cases hlt : whole < width
    · rw [if_pos hlt, if_pos hlt]; rfl
    · rw [if_neg hlt, if_neg hlt, List.append_nil]
  · rw [barExpected]
    simp only [← hcdef, ← hwdef, ← hkdef]
    by_cases hlt : whole < width
    · rw [if_pos hlt]
      simp only [List.length_append, List.length_replicate, List.length_cons]
      omega
    · rw [if_neg hlt]
      simp only [List.length_append, List.length_replicate, List.length_nil]
      omega

lemma spinner4_step_eq_set (s c : ℕ) : spinner4Step s c = spinner4Set ((s + c) % 4) := by
  unfold spinner4Step spinner4Set; omega

lemma spinner8_step_eq_set (s c : ℕ) : spinner8Step s c = spinner8Set ((s + c) % 8) := by
  unfold spinner8Step spinner8Set; omega

lemma counter16_step_eq_set (s c : ℕ) : counter16Step s c = counter16Set ((s + c) % 16) := by
  unfold counter16Step counter16Set; omega

lemma counter256_step_eq_set (s c : ℕ) :
    counter256Step s c = counter256Set ((s + c) % 256) := by
  unfold counter256Step counter256Set; omega

lemma snake_step_eq_set (s c : ℕ) : snakeStep s c = snakeSet ((s + c) % 4294967296) := by
  unfold snakeStep snakeSet; omega

lemma foldl_lt_of_lt {f : ℕ → SpinOp → ℕ} {L : ℕ} (hf : ∀ s op, f s op < L) :
    ∀ (ops : List SpinOp) (s : ℕ), s < L → List.foldl f s ops < L := by
  intro ops
  induction ops with
  | nil => intro s hs; simpa using hs
  | cons op rest ih => intro s hs; simpa using ih (f s op) (hf s op)

lemma applyOp4_lt (s : ℕ) (op : SpinOp) : applyOp4 s op < 4 := by
  cases op <;> simp only [applyOp4, spinner4Set, spinner4Step] <;> omega

lemma applyOp8_lt (s : ℕ) (op : SpinOp) : applyOp8 s op < 8 := by
  cases op <;> simp only [applyOp8, spinner8Set, spinner8Step] <;> omega

lemma applyOp16_lt (s : ℕ) (op : SpinOp) : applyOp16 s op < 16 := by
  cases op <;> simp only [applyOp16, counter16Set, counter16Step] <;> omega

/-! ## Claim theorems -/

/-- Claim C4: for every stored progress value (any float, including NaN,
infinities and values outside [0, 1]), every render width and every fill
character, `Bar`'s renderer never panics and emits exactly the character
sequence described by the claim — `whole = ⌊width · clamp(progress)⌋` full
blocks, then, if `whole < width`, one partial column (the `k`-th eighth
glyph for `k = ⌊fract · 8⌋`, the fill character for `k = 0`) and fill
characters for the remaining columns, and no partial column once
`whole = width` — for a total of exactly `width` characters. -/
theorem C4_bar_render_contract (p : FloatVal) (width : ℕ) (fill : Char) :
    barRender p width fill = some (barExpected (clamp01 p) width fill) ∧
      (barExpected (clamp01 p) width fill).length = width :=
  barRender_spec p width fill

/-- Claim C5: the three concrete bar renderings at width 10 with space
fill: progress 0 gives 10 fills, progress 1 gives 10 full blocks, progress
0.55 gives five full blocks, a half block and four fills. -/
theorem C5_bar_examples :
    barRender (.fin 0) 10 ' ' = some (List.replicate 10 ' ') ∧
    barRender (.fin 1) 10 ' ' = some (List.replicate 10 '█') ∧
    barRender (.fin (11 / 20)) 10 ' ' =
      some ['█', '█', '█', '█', '█', '▌', ' ', ' ', ' ', ' '] := by
  refine ⟨?_, ?_, ?_⟩
  · have h : clamp01 (.fin 0) = 0 := by simp [clamp01, fmax, fmin]
    rw [barRender, h]
    norm_num [eighthChar]
    decide
  · have h : clamp01 (.fin 1) = 1 := by simp [clamp01, fmax, fmin]
    rw [barRender, h]
    norm_num
    decide
  · have h : clamp01 (.fin (11 / 20)) = 11 / 20 := by
      simp [clamp01, fmax, fmin]; norm_num
    rw [barRender, h]
    have h2 : (⌊(10 : ℚ) * (11 / 20)⌋).toNat = 5 := by norm_num; rfl
    simp only [Nat.cast_ofNat, h2]
    norm_num [eighthChar]
    decide

/-- Claim C6: for every spinner variant, every reachable state `s` and every
`u32` count, stepping by `count` and rendering gives the same glyph as
setting the state to `(s + count) mod cycle_length` and rendering, the cycle
lengths being 4, 8, 16, 256 and `2^32`. -/
theorem C6_step_set_agree (s c : ℕ) :
    (s < 4 → render4 (spinner4Step s c) = render4 (spinner4Set ((s + c) % 4))) ∧
    (s < 8 → render8 (spinner8Step s c) = render8 (spinner8Set ((s + c) % 8))) ∧
    (s < 16 → render16 (counter16Step s c) = render16 (counter16Set ((s + c) % 16))) ∧
    (s < 256 → render256 (counter256Step s c) = render256 (counter256Set ((s + c) % 256))) ∧
    (s < 4294967296 → c < 4294967296 →
      renderSnake (snakeStep s c) = renderSnake (snakeSet ((s + c) % 4294967296))) :=
  ⟨fun _ => congrArg render4 (spinner4_step_eq_set s c),
   fun _ => congrArg render8 (spinner8_step_eq_set s c),
   fun _ => congrArg render16 (counter16_step_eq_set s c),
   fun _ => congrArg render256 (counter256_step_eq_set s c),
   fun _ _ => congrArg renderSnake (snake_step_eq_set s c)⟩

/-- Witness for C6 at the concrete state 3 and count 9. -/
theorem C6_step_set_agree_witness :
    render4 (spinner4Step 3 9) = render4 (spinner4Set ((3 + 9) % 4)) ∧
    render8 (spinner8Step 3 9) = render8 (spinner8Set ((3 + 9) % 8)) ∧
    render16 (counter16Step 3 9) = render16 (counter16Set ((3 + 9) % 16)) ∧
    render256 (counter256Step 3 9) = render256 (counter256Set ((3 + 9) % 256)) ∧
    renderSnake (snakeStep 3 9) = renderSnake (snakeSet ((3 + 9) % 4294967296)) :=
  ⟨(C6_step_set_agree 3 9).1 (by decide),
   (C6_step_set_agree 3 9).2.1 (by decide),
   (C6_step_set_agree 3 9).2.2.1 (by decide),
   (C6_step_set_agree 3 9).2.2.2.1 (by decide),
   (C6_step_set_agree 3 9).2.2.2.2 (by decide) (by decide)⟩

/-- Claim C8: after any sequence of `set`/`step` calls with arbitrary
arguments, starting from `new()`, the stored state of `Spinner4`, `Spinner8`
and `Counter16` is strictly below the glyph table's length, so the unchecked
table lookup at render time is always in range. -/
theorem C8_spinner_state_invariant (ops : List SpinOp) :
    List.foldl applyOp4 0 ops < SPINNER4_STATES.length ∧
    List.foldl applyOp8 0 ops < SPINNER8_STATES.length ∧
    List.foldl applyOp16 0 ops < COUNTER16_STATES.length := by
  refine ⟨?_, ?_, ?_⟩
  · exact foldl_lt_of_lt applyOp4_lt ops 0 (by decide)
  · exact foldl_lt_of_lt applyOp8_lt ops 0 (by decide)
  · exact foldl_lt_of_lt applyOp16_lt ops 0 (by decide)

lemma charOfNat_toNat (n : ℕ) (h : n < 55296) : (Char.ofNat n).toNat = n := by
  simp [Char.ofNat, Nat.isValidChar, h, Char.ofNatAux, Char.toNat]
  rfl

set_option maxRecDepth 8000 in
lemma brailleBits_dotCount_all :
    ∀ b : Fin 256, dotCount (brailleBits b.val) = dotCount b.val ∧ brailleBits b.val < 256 := by
  decide

set_option maxRecDepth 40000 in
lemma rotr8_dotCount_all :
    ∀ b : Fin 256, ∀ k : Fin 8,
      dotCount (rotr8 b.val k.val) = dotCount b.val ∧ rotr8 b.val k.val < 256 := by
  decide

set_option maxRecDepth 8000 in
lemma nibbleRev_dotCount_all :
    ∀ b : Fin 256, dotCount (nibbleRev b.val) = dotCount b.val ∧ nibbleRev b.val < 256 := by
  decide

lemma mask_dotCount_all :
    ∀ l : Fin 9,
      dotCount (((0xFF <<< l.val) &&& 0xFF) ^^^ 0xFF) = l.val ∧
        (((0xFF <<< l.val) &&& 0xFF) ^^^ 0xFF) < 256 := by
  decide

lemma rotr8_mod (b k : ℕ) : rotr8 b k = rotr8 b (k % 8) := by
  unfold rotr8
  rw [show k % 8 % 8 = k % 8 from by omega]

set_option maxRecDepth 8000 in
lemma brailleBitsInv_leftInv : ∀ b : Fin 256, brailleBitsInv (brailleBits b.val) = b.val := by
  decide

lemma brailleBits_inj {a b : ℕ} (ha : a < 256) (hb : b < 256)
    (h : brailleBits a = brailleBits b) : a = b := by
  have h1 := brailleBitsInv_leftInv ⟨a, ha⟩
  have h2 := brailleBitsInv_leftInv ⟨b, hb⟩
  simp only at h1 h2
  rw [← h1, ← h2, h]

lemma snakeByte_dotCount (s : ℕ) :
    dotCount (snakeByte s) = snakeLength s ∧ snakeByte s < 256 := by
  have h10 : s % 10 < 10 := Nat.mod_lt _ (by norm_num)
  have hl : 1 ≤ snakeLength s ∧ snakeLength s ≤ 6 := by
    unfold snakeLength; omega
  have hl9 : snakeLength s < 9 := by omega
  have hmask := mask_dotCount_all ⟨snakeLength s, hl9⟩
  simp only at hmask
  set mask : ℕ := ((0xFF <<< snakeLength s) &&& 0xFF) ^^^ 0xFF with hmaskdef
  set pos : ℕ := (5 * (s / 10) + (s % 10 - 5)) % 256 with hposdef
  have hrot8 : pos % 8 < 8 := by omega
  have hrot := rotr8_dotCount_all ⟨mask, hmask.2⟩ ⟨pos % 8, hrot8⟩
  simp only at hrot
  rw [← rotr8_mod mask pos] at hrot
  have hnib := nibbleRev_dotCount_all ⟨rotr8 mask pos, hrot.2⟩
  simp only at hnib
  have hsb : snakeByte s = nibbleRev (rotr8 mask pos) := rfl
  rw [hsb, hnib.1, hrot.1, hmask.1]
  exact ⟨rfl, hnib.2⟩

/-- Claim C9: for every `u32` state, the snake's rendered braille glyph has
exactly `|state mod 10 − 5| + 1` dots lit, always between 1 and 6: the mask
construction sets that many bits and the rotation, the high-nibble reversal
and the braille bit permutation each preserve the number of set bits. -/
theorem C9_snake_dot_count (s : ℕ) (_hs : s < 4294967296) :
    dotCount ((renderSnake s).toNat - 0x2800) = ((s % 10 : ℤ) - 5).natAbs + 1 ∧
    1 ≤ dotCount ((renderSnake s).toNat - 0x2800) ∧
    dotCount ((renderSnake s).toNat - 0x2800) ≤ 6 := by
  have hsb := snakeByte_dotCount s
  have hbb := brailleBits_dotCount_all ⟨snakeByte s, hsb.2⟩
  simp only at hbb
  have hval : (renderSnake s).toNat = 0x2800 + brailleBits (snakeByte s) := by
    unfold renderSnake braille_binary
    exact charOfNat_toNat _ (by omega)
  have hd : dotCount ((renderSnake s).toNat - 0x2800) = snakeLength s := by
    rw [hval]
    rw [show 0x2800 + brailleBits (snakeByte s) - 0x2800 = brailleBits (snakeByte s) from by
      omega]
    rw [hbb.1, hsb.1]
  have h10 : s % 10 < 10 := Nat.mod_lt _ (by norm_num)
  have hl : 1 ≤ snakeLength s ∧ snakeLength s ≤ 6 := by unfold snakeLength; omega
  refine ⟨?_, ?_, ?_⟩
  · rw [hd]; unfold snakeLength; omega
  · rw [hd]; omega
  · rw [hd]; omega

/-- Witness for C9 at the concrete state 12345. -/
theorem C9_snake_dot_count_witness :
    12345 < 4294967296 ∧
    (dotCount ((renderSnake 12345).toNat - 0x2800) = ((12345 % 10 : ℤ) - 5).natAbs + 1 ∧
      1 ≤ dotCount ((renderSnake 12345).toNat - 0x2800) ∧
      dotCount ((renderSnake 12345).toNat - 0x2800) ≤ 6) :=
  ⟨by norm_num, C9_snake_dot_count 12345 (by norm_num)⟩

/-- Claim C7: a fresh `Counter256` renders the empty braille cell U+2800;
after `step(0x0F)` it renders U+2800 + 0x47 (the image of bits 0–3 under the
bit permutation); after a further `step(0xF0)` it renders the fully lit cell
U+28FF. -/
theorem C7_counter256_examples :
    render256 0 = '⠀' ∧
    render256 (counter256Step 0 0x0F) = '⡇' ∧
    render256 (counter256Step (counter256Step 0 0x0F) 0xF0) = '⣿' ∧
    0x2800 + brailleBits 0x0F = 0x2800 + 0x47 ∧
    0x2800 + brailleBits 0xFF = 0x28FF := by
  refine ⟨by decide, by decide, by decide, by decide, by decide⟩

/-- Claim C10: the braille bit rearrangement is a permutation of the 8 bits:
on the 256 byte values it stays below 256 (so every code point lies in
U+2800..=U+28FF, a valid Unicode scalar range below the surrogates), it is
injective, and distinct `Counter256` states render distinct glyphs. -/
theorem C10_braille_injective :
    (∀ b : Fin 256, brailleBits b.val < 256 ∧ 0x2800 + brailleBits b.val < 0xD800) ∧
    (∀ a b : Fin 256, brailleBits a.val = brailleBits b.val → a = b) ∧
    (∀ a b : Fin 256, a ≠ b → braille_binary a.val ≠ braille_binary b.val) := by
  have hlt : ∀ b : Fin 256, brailleBits b.val < 256 := fun b =>
    (brailleBits_dotCount_all b).2
  refine ⟨fun b => ⟨hlt b, by have := hlt b; omega⟩, ?_, ?_⟩
  · intro a b h
    exact Fin.ext (brailleBits_inj a.isLt b.isLt h)
  · intro a b hne heq
    apply hne
    have ha := hlt a
    have hb := hlt b
    have h1 : (braille_binary a.val).toNat = 0x2800 + brailleBits a.val :=
      charOfNat_toNat _ (by omega)
    have h2 : (braille_binary b.val).toNat = 0x2800 + brailleBits b.val :=
      charOfNat_toNat _ (by omega)
    have h3 : 0x2800 + brailleBits a.val = 0x2800 + brailleBits b.val := by
      rw [← h1, ← h2, heq]
    exact Fin.ext (brailleBits_inj a.isLt b.isLt (by omega))

/-- Witness for C10 at the concrete byte values 3 and 5. -/
theorem C10_braille_injective_witness :
    brailleBits (3 : Fin 256).val < 256 ∧
    braille_binary (3 : Fin 256).val ≠ braille_binary (5 : Fin 256).val :=
  ⟨(C10_braille_injective.1 3).1, C10_braille_injective.2.2 3 5 (by decide)⟩

lemma fmt_sigfigs_isSome (v : FloatVal) (figures : ℕ) (hf : 1 ≤ figures) :
    (fmt_sigfigs v figures).isSome = true := by
  unfold fmt_sigfigs
  by_cases h0 : v = .fin 0
  · rw [if_pos h0]
    unfold checkedSub
    rw [if_pos hf]
    rfl
  · rw [if_neg h0]
    by_cases hc : truncLog10F v < 0 ∨ (figures : ℤ) ≤ truncLog10F v
    · rw [if_pos hc]
      unfold checkedSub
      rw [if_pos hf]
      rfl
    · rw [if_neg hc]
      push_neg at hc
      have hle : (truncLog10F v + 1).toNat ≤ figures := by omega
      unfold checkedSub
      rw [if_pos hle]
      rfl

/-- Claim C1 (code bug): the small-value branch of `si` compares the *next*
divisor against `|x|` instead of the current one, so at `x = 1e-4` it
returns mantissa `0.1` with the prefix `m` — the scaled magnitude is below
1 and the selected divisor `1e-3` is not a "lesser prefix" of `x`, against
both the claim and `si`'s own documentation (the intended result is
`(100, µ)`). -/
theorem C1_si_small_failing_eval :
    si (1 / 10000) = (1 / 10, some UnitSym.m) ∧
    |(si (1 / 10000)).1| < 1 ∧
    |((1 : ℚ) / 10000)| < 1 / 1000 := by
  have habs : |((1 : ℚ) / 10000)| = 1 / 10000 := abs_of_pos (by norm_num)
  have h : si (1 / 10000) = (1 / 10, some UnitSym.m) := by
    unfold si
    rw [habs]
    rw [if_pos (by norm_num)]
    norm_num [siSmallGo, SMALL, habs]
  refine ⟨h, ?_, ?_⟩
  · rw [h]
    rw [show |((1 : ℚ) / 10)| = 1 / 10 from abs_of_pos (by norm_num)]
    norm_num
  · rw [habs]; norm_num

/-- Claim C2 (code bug): `fmt_sigfigs` computes the log of `0.5` with the
`as isize` cast, which truncates toward zero: the computed log is 0, not
`⌊log10 0.5⌋ = −1` (certified here by `10^(−1) ≤ |0.5| < 10^0`), so `0.5`
with 2 significant figures is rendered in fixed notation with 1 fractional
digit — producing `0.5`, a single significant digit — where the claim (and
the function's own contract of exactly `figures` significant digits)
requires exponential notation. -/
theorem C2_sigfigs_trunc_failing_eval :
    fmt_sigfigs (.fin (1 / 2)) 2 = some (.fixed 1) ∧
    truncLog10 (1 / 2) = 0 ∧
    (10 : ℚ) ^ (-1 : ℤ) ≤ |((1 : ℚ) / 2)| ∧ |((1 : ℚ) / 2)| < (10 : ℚ) ^ (0 : ℤ) := by
  have habs : |((1 : ℚ) / 2)| = 1 / 2 := abs_of_pos (by norm_num)
  have hlog : truncLog10 (1 / 2) = 0 := by
    unfold truncLog10
    rw [habs]
    rw [if_neg (by norm_num)]
    rw [show (⌊((1 : ℚ) / 2)⁻¹⌋).toNat = 2 from by norm_num; rfl]
    rw [Nat.log_eq_zero_iff.mpr (Or.inl (by norm_num))]
    rfl
  refine ⟨?_, hlog, ?_, ?_⟩
  · unfold fmt_sigfigs
    rw [if_neg (by simp)]
    simp only [truncLog10F]
    rw [hlog]
    norm_num [checkedSub]
  · rw [habs]; norm_num
  · rw [habs]; norm_num

/-- Claim C3 counterexample: with `figures = 0` every branch of
`fmt_sigfigs` evaluates `figures - 1` on a `usize`, which underflows — a
panic in a debug build, modelled by `none` — so the formatter does *not*
terminate normally for `figures = 0`. -/
theorem C3_counterexample :
    fmt_sigfigs (.fin 0) 0 = none ∧ fmt_sigfigs (.fin 1) 0 = none := by
  constructor
  · unfold fmt_sigfigs
    rw [if_pos rfl]
    rfl
  · have habs : |(1 : ℚ)| = 1 := abs_of_pos (by norm_num)
    have hlog : truncLog10 1 = 0 := by
      unfold truncLog10
      rw [habs]
      rw [if_pos (by norm_num)]
      rw [show (⌊(1 : ℚ)⌋).toNat = 1 from by norm_num]
      rw [Nat.log_one_right]
      rfl
    unfold fmt_sigfigs
    rw [if_neg (by simp)]
    simp only [truncLog10F]
    rw [hlog]
    rw [if_pos (Or.inr (by norm_num))]
    rfl

/-- Claim C3, amended to `figures ≥ 1`: with at least one requested
significant figure no formatter or indicator operation panics — `fmt_sigfigs`
succeeds on every float (0, NaN and infinities included), the bar renderer
never reaches its `unreachable!()` arm for any progress, width and fill, and
the progress used for rendering is the clamp of the stored value to [0, 1],
with the infinities clamped to the nearest boundary and NaN to 0. -/
theorem C3_no_panic_amended (v : FloatVal) (figures : ℕ) (hf : 1 ≤ figures)
    (p : FloatVal) (width : ℕ) (fill : Char) :
    (fmt_sigfigs v figures).isSome = true ∧
    (barRender p width fill).isSome = true ∧
    0 ≤ clamp01 p ∧ clamp01 p ≤ 1 ∧
    clamp01 .inf = 1 ∧ clamp01 .ninf = 0 ∧ clamp01 .nan = 0 := by
  refine ⟨fmt_sigfigs_isSome v figures hf, ?_, clamp01_nonneg p, clamp01_le_one p,
    rfl, rfl, rfl⟩
  rw [(barRender_spec p width fill).1]
  rfl

/-- Witness for the amended C3 at `figures = 1`, a NaN progress, width 5. -/
theorem C3_no_panic_amended_witness :
    1 ≤ 1 ∧
    ((fmt_sigfigs (.fin 0) 1).isSome = true ∧
      (barRender .nan 5 ' ').isSome = true ∧
      0 ≤ clamp01 .nan ∧ clamp01 .nan ≤ 1 ∧
      clamp01 .inf = 1 ∧ clamp01 .ninf = 0 ∧ clamp01 .nan = 0) :=
  ⟨by decide, C3_no_panic_amended (.fin 0) 1 (by decide) .nan 5 ' '⟩

end Yapb
